import Mathlib

/-
Verification of the kprobe event-format package (kprobe.go).

The development shallowly embeds the package's schema parser, type
resolver, struct builder (`StructPkg`) and decoder (`Unpack`) as
executable Lean functions over `List Char` strings and `Nat`/`Int`
arithmetic, and proves the frozen claims about them.

Modelling conventions:
  * Strings are `List Char` (`Str`); Go string functions used by the
    source (`strings.Split`, `TrimPrefix`, `TrimSuffix`, `LastIndex`,
    `Index`, `TrimLeft`, `TrimRightFunc`, `strconv.Atoi`) are embedded
    one by one below.
  * Go runtime panics (nil dereference after a failed map lookup,
    integer division by zero, reflect panics, index out of range) are
    modelled as the `GoErr.crash` constructor, distinct from ordinary
    `error` returns (`GoErr.err`), so that "recoverable error" and
    "process abort" are distinguishable.
  * The target platform is linux/amd64 (the platform of the package's
    tests): C `long`/`long long` are 8 bytes and the Go alignment of an
    n-byte integer type is n.  `unicode.IsUpper`/`unicode.ToUpper` are
    modelled on the ASCII range, which covers every field name the
    schema syntax produces.
  * `reflect.StructOf` (Go runtime, not repository code) is modelled by
    `structOfOffsets`, which lays fields out by Go's documented struct
    layout rule: each field is placed at the running offset rounded up
    to its type's alignment.
-/

namespace KprobeProof

/-- Character strings, as lists of characters. -/
abbrev Str := List Char

/-- `strings.HasPrefix` / `bytes.HasPrefix`. -/
def hasPre (p s : Str) : Bool := List.isPrefixOf p s

/-- `strings.HasSuffix`. -/
def hasSuf (p s : Str) : Bool := List.isSuffixOf p s

/-- `strings.TrimPrefix`: drop `p` from the front of `s` when present. -/
def trimPre (p s : Str) : Str := if hasPre p s then s.drop p.length else s

/-- `strings.TrimSuffix`: drop `p` from the end of `s` when present. -/
def trimSuf (p s : Str) : Str := if hasSuf p s then s.take (s.length - p.length) else s

/-- `strings.Split(s, sep)` for a single-character separator. -/
def splitOnChar (sep : Char) (s : Str) : List Str :=
  match s with
  | [] => [[]]
  | c :: rest =>
    match splitOnChar sep rest with
    | [] => [[]]
    | r :: rs => if c = sep then [] :: r :: rs else (c :: r) :: rs

/-- `strings.Index(s, c)` for a one-character pattern: first index of `c`. -/
def indexOfChar (c : Char) : Str → Option Nat
  | [] => none
  | x :: rest =>
    if x = c then some 0
    else match indexOfChar c rest with
      | some i => some (i + 1)
      | none => none

/-- `strings.LastIndex(s, c)` for a one-character pattern: last index of `c`. -/
def lastIndexOfChar (c : Char) (s : Str) : Option Nat :=
  match indexOfChar c s.reverse with
  | some i => some (s.length - 1 - i)
  | none => none

/-- Decimal digit test used by `arraySize`'s `TrimRightFunc` closure. -/
def isDigitCh (c : Char) : Bool := 48 ≤ c.toNat && c.toNat ≤ 57

/-- `strings.TrimRightFunc(s, isDigit)`. -/
def trimRightDigits (s : Str) : Str := (s.reverse.dropWhile isDigitCh).reverse

/-- `unicode.IsUpper`, on the ASCII range. -/
def isUpperCh (c : Char) : Bool := 65 ≤ c.toNat && c.toNat ≤ 90

/-- `unicode.ToUpper`, on the ASCII range. -/
def toUpperCh (c : Char) : Char :=
  if 97 ≤ c.toNat && c.toNat ≤ 122 then Char.ofNat (c.toNat - 32) else c

/-- Errors produced by the embedded code.  `err` is an ordinary Go
`error` return value; `crash` is a runtime panic (process abort). -/
inductive GoErr where
  | err (msg : String)
  | crash (msg : String)
deriving DecidableEq, Repr

/-- All-decimal-digit string to its value; `none` when empty or when a
non-digit occurs. -/
def digitsVal (s : Str) : Option Nat :=
  if s = [] then none
  else if s.all isDigitCh then
    some (s.foldl (fun a c => a * 10 + (c.toNat - 48)) 0)
  else none

/-- `strconv.Atoi`: optional sign, then decimal digits; rejects the
empty string, stray characters and values outside the `int64` range. -/
def atoi (s : Str) : Except GoErr Int :=
  let signed : Bool × Str :=
    match s with
    | '-' :: r => (true, r)
    | '+' :: r => (false, r)
    | r => (false, r)
  match digitsVal signed.2 with
  | none => .error (.err "invalid syntax")
  | some v =>
    let x : Int := if signed.1 then -(v : Int) else (v : Int)
    if x < -(2 ^ 63) ∨ 2 ^ 63 - 1 < x then .error (.err "value out of range")
    else .ok x

/-- Go types that the package constructs via `reflect`. -/
inductive GoTyp where
  | int8 | int16 | int32 | int64
  | uint8 | uint16 | uint32 | uint64
  | arr (n : Nat) (elem : GoTyp)
  | slice (elem : GoTyp)
deriving DecidableEq, Repr

/-- `reflect.Type.Size` on linux/amd64. -/
def GoTyp.size : GoTyp → Nat
  | .int8 | .uint8 => 1
  | .int16 | .uint16 => 2
  | .int32 | .uint32 => 4
  | .int64 | .uint64 => 8
  | .arr n e => n * e.size
  | .slice _ => 24

/-- `reflect.Type.Align` on linux/amd64. -/
def GoTyp.align : GoTyp → Nat
  | .int8 | .uint8 => 1
  | .int16 | .uint16 => 2
  | .int32 | .uint32 => 4
  | .int64 | .uint64 => 8
  | .arr _ e => e.align
  | .slice _ => 8

/-- The `integerTypes` map: `{size, signed}` to the Go integer type.
A lookup for a size outside {1,2,4,8} misses, which the source turns
into a nil `reflect.Type`. -/
def integerTypes (size : Int) (signed : Bool) : Option GoTyp :=
  if size = 1 then some (if signed then .int8 else .uint8)
  else if size = 2 then some (if signed then .int16 else .uint16)
  else if size = 4 then some (if signed then .int32 else .uint32)
  else if size = 8 then some (if signed then .int64 else .uint64)
  else none

/-- The `dynamicArrayTypes` map from a dynamic-array element spelling to
its `typeClass` (byte width, signedness).  C type widths are those of
linux/amd64 (`char`=1, `short`=2, `long`=`long long`=8). -/
def dynamicArrayTypes (s : Str) : Option (Nat × Bool) :=
  if s = "char[]".data then some (1, false)
  else if s = "schar[]".data then some (1, true)
  else if s = "uchar[]".data then some (1, false)
  else if s = "short[]".data then some (2, true)
  else if s = "signed short[]".data then some (2, true)
  else if s = "unsigned short[]".data then some (2, false)
  else if s = "long[]".data then some (8, true)
  else if s = "signed long[]".data then some (8, true)
  else if s = "unsigned long[]".data then some (8, false)
  else if s = "long long[]".data then some (8, true)
  else if s = "signed long long[]".data then some (8, true)
  else if s = "unsigned long long[]".data then some (8, false)
  else if s = "s8[]".data then some (1, true)
  else if s = "s16[]".data then some (2, true)
  else if s = "s32[]".data then some (4, true)
  else if s = "s64[]".data then some (8, true)
  else if s = "u8[]".data then some (1, false)
  else if s = "u16[]".data then some (2, false)
  else if s = "u32[]".data then some (4, false)
  else if s = "u64[]".data then some (8, false)
  else none

/-- `arraySize`: element count and dynamic flag from a C type spelling. -/
def arraySize (ctyp : Str) : Except GoErr (Int × Bool) :=
  if ¬ hasSuf "]".data ctyp then .ok (1, false)
  else
    let body := ctyp.take (ctyp.length - 1)
    let pre := trimRightDigits body
    if ¬ hasSuf "[".data pre then .error (.err "invalid data type")
    else
      let c := trimPre pre body
      if c = [] then
        if ¬ hasPre "__data_loc ".data ctyp then .error (.err "invalid data type")
        else .ok (1, true)
      else
        match atoi c with
        | .error e => .error e
        | .ok n => .ok (n, false)

/-- `integerType`: resolve `size:`/`signed:` tokens and the C type
spelling to a Go type; in aligned mode an offset that violates the
type's alignment yields a byte-array fallback.  A zero element count
reaches Go's `bytes % n` and divides by zero; a missing `integerTypes`
entry reaches `typ.Align()` on a nil `reflect.Type`.  Both are runtime
panics, modelled as `GoErr.crash`. -/
def integerType (size signed ctyp : Str) (off : Int) (aligned : Bool) :
    Except GoErr (GoTyp × Int × Bool) := do
  let bytes ← atoi (trimSuf ";".data (trimPre "size:".data size))
  let s ← atoi (trimSuf ";".data (trimPre "signed:".data signed))
  let (n, dynamic) ← arraySize ctyp
  if n = 0 then .error (.crash "integer divide by zero")
  else if bytes.tmod n ≠ 0 then .error (.err "invalid size for array")
  else
    match integerTypes (bytes.tdiv n) (s = 1 && !dynamic) with
    | none => .error (.crash "nil pointer dereference in Align")
    | some typ =>
      if aligned && off.tmod (typ.align : Int) ≠ 0 then
        .ok (.arr bytes.toNat .uint8, bytes, true)
      else if 1 < n then .ok (.arr n.toNat typ, bytes, false)
      else .ok (typ, bytes, false)

/-- `fieldName`: split a `field:<ctyp> <name>;` token into the C type
spelling and the field name, moving a trailing array suffix from the
name onto the type. -/
def fieldName (s : Str) : Except GoErr (Str × Str) :=
  let t := trimSuf ";".data (trimPre "field:".data s)
  match lastIndexOfChar ' ' t with
  | none => .error (.err "invalid field description")
  | some i =>
    let ctyp := t.take i
    let field := t.drop (i + 1)
    match indexOfChar '[' field with
    | some idx => .ok (ctyp ++ field.drop idx, field.take idx)
    | none => .ok (ctyp, field)

/-- `offset`: parse an `offset:<n>;` token. -/
def offsetP (s : Str) : Except GoErr Int :=
  atoi (trimSuf ";".data (trimPre "offset:".data s))

/-- `export` (named `exportLabel` here because `export` is a Lean
keyword): strip leading underscores and uppercase the first remaining
character; an all-underscore name is returned unchanged. -/
def exportLabel (s : Str) : Str :=
  let n := s.dropWhile (· = '_')
  match n with
  | [] => s
  | c :: rest => if isUpperCh c then n else toUpperCh c :: rest

/-- Modelled from the spec's export-transform wording: "strip leading
underscores; if a character remains, uppercase its first letter and
leave the rest unchanged; an all-underscore name maps to itself". -/
def exportSpec (s : Str) : Str :=
  let n := s.dropWhile (· = '_')
  match n with
  | [] => s
  | c :: rest => toUpperCh c :: rest

/-- One `reflect.StructField` as assembled by `StructPkg`: the exported
(or padding) name, the constructed Go type, the `ctyp` tag, whether an
`unaligned` tag was attached, the declared `Offset`, and whether the
field is exported (padding fields carry a package path and are not). -/
structure SField where
  name : Str
  typ : GoTyp
  ctyp : Str
  tagUnaligned : Bool
  off : Int
  exported : Bool
deriving DecidableEq, Repr

/-- The `UnalignedFieldsError` value: index list, mask (`none` models a
nil Go slice) and dynamic-array flag. -/
structure UnalignedFields where
  fields : List Nat
  mask : Option (List Bool)
  dynamicArray : Bool
deriving DecidableEq, Repr

/-- Scanner-loop state of `StructPkg`. -/
structure BState where
  fields : List SField
  ufields : List Nat
  dyn : Bool
  i : Nat
  padIdx : Nat
  nextOffset : Int
  seen : List Str
  name : Str
  id : Nat
deriving DecidableEq, Repr

def initState : BState := ⟨[], [], false, 0, 0, 0, [], [], 0⟩

/-- `"_pad" ++ digits` padding-field name. -/
def padName (k : Nat) : Str := "_pad".data ++ Nat.toDigits 10 k

/-- One iteration of `StructPkg`'s scanner loop: a `\tfield:` line, a
`name: ` line, an `ID: ` line, or an ignored line. -/
def procLine (st : BState) (b : Str) : Except GoErr BState :=
  if hasPre "\tfield:".data b then
    match splitOnChar '\t' (trimPre "\t".data b) with
    | f =>
      if f.length ≠ 4 then .error (.err "invalid field line")
      else do
        let (ctyp, field) ← fieldName (f.getD 0 [])
        let dyn := if hasPre "__data_loc".data ctyp then true else st.dyn
        let off ← offsetP (f.getD 1 [])
        let (typ, size, fallback) ← integerType (f.getD 2 []) (f.getD 3 []) ctyp off true
        let ufields := if fallback then st.ufields ++ [st.i + st.padIdx] else st.ufields
        let pad := off - st.nextOffset
        if pad < 0 then .error (.err "invalid offset for field")
        else
          let fields :=
            if 0 < pad then
              st.fields ++ [⟨padName st.padIdx, .arr pad.toNat .uint8, [], false,
                st.nextOffset, false⟩]
            else st.fields
          let padIdx := if 0 < pad then st.padIdx + 1 else st.padIdx
          let fname := exportLabel field
          if st.seen.contains fname then .error (.err "duplicate field name")
          else
            .ok { fields := fields ++ [⟨fname, typ, ctyp, fallback, off, true⟩],
                  ufields, dyn, i := st.i + 1, padIdx,
                  nextOffset := off + size, seen := fname :: st.seen,
                  name := st.name, id := st.id }
  else if hasPre "name: ".data b then
    .ok { st with name := trimPre "name: ".data b }
  else if hasPre "ID: ".data b then
    match atoi (trimPre "ID: ".data b) with
    | .error e => .error e
    | .ok n =>
      if 65535 < n then .error (.err "format id overflows uint16")
      else .ok { st with id := (n.emod 65536).toNat }
  else .ok st

/-- Round `x` up to the next multiple of `a` (`x ≥ 0`, `a > 0`). -/
def alignUp (x a : Int) : Int := x + (a - x.emod a).emod a

/-- Model of `reflect.StructOf`'s field placement (Go struct layout):
each field goes at the running offset rounded up to the field type's
alignment.  Returns the offsets, in field order. -/
def structOfOffsets (ts : List GoTyp) : List Int :=
  (ts.foldl
    (fun (acc : Int × List Int) t =>
      let off := alignUp acc.1 (t.align : Int)
      (off + (t.size : Int), acc.2 ++ [off]))
    (0, [])).2

/-- Name/offset view of the struct type built by `reflect.StructOf`. -/
def namesOffsets (fields : List SField) : List (Str × Int) :=
  (fields.map (·.name)).zip (structOfOffsets (fields.map (·.typ)))

/-- `reflect.Type.FieldByName`, restricted to the offset: first field
with the given name. -/
def findByName : List (Str × Int) → Str → Option Int
  | [], _ => none
  | (n, o) :: rest, q => if n = q then some o else findByName rest q

/-- The post-construction verification loop of `StructPkg`: every
requested field must exist in the constructed struct type at exactly
its declared offset. -/
def verifyAux (pairs : List (Str × Int)) : List SField → Except GoErr Unit
  | [] => .ok ()
  | f :: rest =>
    match findByName pairs f.name with
    | none => .error (.err "lost field")
    | some got =>
      if got ≠ f.off then .error (.err "could not generate correct field offset")
      else verifyAux pairs rest

def verifyFields (fields : List SField) : Except GoErr Unit :=
  verifyAux (namesOffsets fields) fields

/-- Successful output of `StructPkg`: the struct's fields, probe name,
id, fixed record size (`nextOffset` after the last field), and the
`UnalignedFieldsError` report (`none` when the error return is nil;
`some` models the non-fatal `UnalignedFieldsError` return that
accompanies a valid struct type). -/
structure BuildOut where
  fields : List SField
  name : Str
  id : Nat
  size : Int
  report : Option UnalignedFields
deriving DecidableEq, Repr

/-- Build the `UnalignedFieldsError` value returned by `StructPkg`. -/
def mkReport (st : BState) : UnalignedFields :=
  ⟨st.ufields,
   some ((List.range st.fields.length).map (fun j => st.ufields.contains j)),
   st.dyn⟩

/-- `StructPkg` over the pre-scanned lines of the format description.
(The `pkg` argument of the source only selects the `PkgPath` metadata
string of padding fields and is dropped; `Struct` is `StructPkg` at the
package's own path.)  `.ok` means a struct type was produced — with
`report = some _` exactly when the non-fatal `UnalignedFieldsError` is
returned alongside it; `.error` means no struct type was produced. -/
def structPkgLines (lines : List Str) : Except GoErr BuildOut :=
  match lines.foldlM procLine initState with
  | .error e => .error e
  | .ok st =>
    match verifyFields st.fields with
    | .error e => .error e
    | .ok () =>
      .ok { fields := st.fields, name := st.name, id := st.id,
            size := st.nextOffset,
            report :=
              if st.ufields ≠ [] ∨ st.dyn then some (mkReport st) else none }

/-- Host byte order, fixed once at init from a two-byte probe. -/
inductive ByteOrder where
  | little
  | big
deriving DecidableEq, Repr

/-- `machine.Uint16/Uint32/Uint64`: interpret a byte list in the given
order.  Little-endian: first byte least significant. -/
def machineUint (order : ByteOrder) (bs : List Nat) : Nat :=
  match order with
  | .little => bs.foldr (fun b acc => b + 256 * acc) 0
  | .big => bs.foldl (fun acc b => acc * 256 + b) 0

/-- Two's-complement reading of `v mod 2^bits` at width `bits`. -/
def toSigned (bits : Nat) (v : Nat) : Int :=
  let m := v % 2 ^ bits
  if m < 2 ^ (bits - 1) then (m : Int) else (m : Int) - 2 ^ bits

/-- A Go value as observed through `reflect` by `Unpack`: integers,
byte-array contents, element slices produced for dynamic arrays, or a
zero value (a freshly allocated destination field). -/
inductive Val where
  | vUint (w : Nat) (v : Nat)
  | vInt (w : Nat) (v : Int)
  | vBytes (bs : List Nat)
  | vSliceU (w : Nat) (vs : List Nat)
  | vSliceI (w : Nat) (vs : List Int)
  | vZero
deriving DecidableEq, Repr

/-- The `reflect.Type` of a slice value built in `Unpack`'s dynamic
branch, for the `reflect.Value.Set` assignability check. -/
def sliceValTyp : Val → Option GoTyp
  | .vSliceU 1 _ => some (.slice .uint8)
  | .vSliceU 2 _ => some (.slice .uint16)
  | .vSliceU 4 _ => some (.slice .uint32)
  | .vSliceU 8 _ => some (.slice .uint64)
  | .vSliceI 1 _ => some (.slice .int8)
  | .vSliceI 2 _ => some (.slice .int16)
  | .vSliceI 4 _ => some (.slice .int32)
  | .vSliceI 8 _ => some (.slice .int64)
  | _ => none

/-- A source struct field as `Unpack` sees it: exported bit, `ctyp`
tag, `reflect` type, current value. -/
structure SrcF where
  exported : Bool
  ctyp : Str
  typ : GoTyp
  val : Val
deriving DecidableEq, Repr

/-- A destination struct field: exported bit and `reflect` type. -/
structure DstF where
  exported : Bool
  typ : GoTyp
deriving DecidableEq, Repr

/-- `unsafe.Slice((*uintN)(&data[0]), cnt)`: `cnt` native-order loads
of `w` bytes each, starting at `data`. -/
def chunkLoads (order : ByteOrder) (w cnt : Nat) (bytes : List Nat) : List Nat :=
  (List.range cnt).map (fun k => machineUint order ((bytes.drop (k * w)).take w))

/-- `dst.Field(i).Set(reflect.ValueOf(slice))`: panics unless the
slice type matches the destination field type. -/
def setSlice (d : DstF) (v : Val) : Except GoErr Val :=
  if sliceValTyp v = some d.typ then .ok v
  else .error (.crash "reflect.Set type mismatch")

/-- The dynamic-array (`__data_loc`) branch of `Unpack`'s first loop:
split the packed descriptor, bounds-check, and build the borrowed
element-slice value for the destination field (`none` stands for the
`continue` that leaves the destination at its zero value). -/
def dynBranch (order : ByteOrder) (d : DstF) (s : SrcF) (data : List Nat) :
    Except GoErr Val :=
  if s.typ ≠ .uint32 then .error (.err "invalid type for dynamic array")
  else
    match s.val with
    | .vUint _ v =>
      let off := v % 65536
      let n := v / 65536
      if data.length < off ∨ data.length < off + n then
        .error (.err "invalid dynamic data indexes")
      else
        let rest := data.drop off
        if rest.length = 0 then .ok .vZero
        else
          let class_ := (dynamicArrayTypes (trimPre "__data_loc ".data s.ctyp)).getD (0, false)
          if class_.2 then
            match class_.1 with
            | 1 => setSlice d (.vSliceI 1 ((rest.take n).map (toSigned 8)))
            | 2 => setSlice d (.vSliceI 2 ((chunkLoads order 2 (n / 2) rest).map (toSigned 16)))
            | 4 => setSlice d (.vSliceU 4 (chunkLoads order 4 (n / 4) rest))
            | 8 => setSlice d (.vSliceU 8 (chunkLoads order 8 (n / 8) rest))
            | _ => .error (.crash "invalid typeclass size")
          else
            match class_.1 with
            | 1 =>
              if d.typ = .slice .uint8 then .ok (.vSliceU 1 (rest.take n))
              else .error (.crash "SetBytes of non-byte-slice")
            | 2 => setSlice d (.vSliceU 2 (chunkLoads order 2 (n / 2) rest))
            | 4 => setSlice d (.vSliceU 4 (chunkLoads order 4 (n / 4) rest))
            | 8 => setSlice d (.vSliceU 8 (chunkLoads order 8 (n / 8) rest))
            | _ => .error (.crash "invalid typeclass size")
    | _ => .error (.crash "Uint on non-integer value")

/-- Whether mask entry `i` is set (a nil mask skips nothing). -/
def maskAt (mask : Option (List Bool)) (i : Nat) : Bool :=
  match mask with
  | none => false
  | some m => m.getD i false

/-- `Unpack`'s first loop, producing the destination field values in
order (fields skipped by the mask, unexported fields, and empty dynamic
ranges keep the zero value of a fresh destination). -/
def loop1 (order : ByteOrder) (mask : Option (List Bool)) (data : List Nat) :
    List (DstF × SrcF) → Nat → Except GoErr (List Val)
  | [], _ => .ok []
  | (d, s) :: rest, i => do
    let v ←
      if maskAt mask i then .ok Val.vZero
      else if ¬ d.exported ∨ ¬ s.exported then .ok Val.vZero
      else if hasPre "__data_loc".data s.ctyp then dynBranch order d s data
      else if s.typ = d.typ then .ok s.val
      else .error (.err "mismatched type for field")
    let vs ← loop1 order mask data rest (i + 1)
    .ok (v :: vs)

/-- `Unpack`'s second pass body for one recorded unaligned index:
reinterpret the source byte array in native order and store it with the
destination's integer kind, truncated to the destination width. -/
def unalignedFix (order : ByteOrder) (d : DstF) (s : SrcF) : Except GoErr Val :=
  let dstSize := d.typ.size
  let srcSize := s.typ.size
  if dstSize ≠ srcSize then .error (.err "mismatched size for field")
  else
    let load : Except GoErr Nat :=
      if srcSize = 2 ∨ srcSize = 4 ∨ srcSize = 8 then
        match s.val with
        | .vBytes bs =>
          if s.typ = .arr srcSize .uint8 ∧ bs.length = srcSize then
            .ok (machineUint order bs)
          else .error (.crash "interface conversion")
        | _ => .error (.crash "interface conversion")
      else .ok 0
    match d.typ with
    | .uint16 => do .ok (.vUint 2 ((← load) % 2 ^ 16))
    | .uint32 => do .ok (.vUint 4 ((← load) % 2 ^ 32))
    | .uint64 => do .ok (.vUint 8 ((← load) % 2 ^ 64))
    | .int16 => do .ok (.vInt 2 (toSigned 16 (← load)))
    | .int32 => do .ok (.vInt 4 (toSigned 32 (← load)))
    | .int64 => do .ok (.vInt 8 (toSigned 64 (← load)))
    | _ => .error (.err "invalid kind for field")

/-- `Unpack`'s second pass over the recorded unaligned field indices. -/
def loop2 (order : ByteOrder) (dst : List DstF) (src : List SrcF) :
    List Nat → List Val → Except GoErr (List Val)
  | [], vals => .ok vals
  | u :: rest, vals =>
    match dst.get? u, src.get? u with
    | some d, some s => do
      let v ← unalignedFix order d s
      loop2 order dst src rest (vals.set u v)
    | _, _ => .error (.crash "index out of range")

/-- `Unpack`: decode the source struct (its field values having been
read from the record bytes) into destination field values, using the
`UnalignedFieldsError` from construction and the complete event buffer
`data` for dynamic arrays.  The `isStructPointer` guards of the source
are outside this model: both arguments are already the pointed-to
structs. -/
def unpack (order : ByteOrder) (dst : List DstF) (src : List SrcF)
    (un : UnalignedFields) (data : List Nat) : Except GoErr (List Val) :=
  if dst.length ≠ src.length then .error (.err "mismatched field count")
  else if un.mask.isSome ∧ (un.mask.getD []).length ≠ dst.length then
    .error (.err "mismatched unaligned field count")
  else do
    let vals ← loop1 order un.mask data (dst.zip src) 0
    loop2 order dst src un.fields vals

/-- Concrete schemas and expected outputs used by witness and
counterexample theorems below. -/
def c6Lines : List Str :=
  [("\tfield:unsigned int a;\toffset:0;\tsize:4;\tsigned:0;").data,
   ("\tfield:unsigned short b;\toffset:7;\tsize:2;\tsigned:0;").data]

def c6Out : BuildOut :=
  ⟨[⟨("A").data, .uint32, ("unsigned int").data, false, 0, true⟩,
    ⟨("_pad0").data, .arr 3 .uint8, [], false, 4, false⟩,
    ⟨("B").data, .arr 2 .uint8, ("unsigned short").data, true, 7, true⟩],
   [], 0, 9, some ⟨[1], some [false, true, false], false⟩⟩

def c1Lines : List Str :=
  [("\tfield:u64 a;\toffset:0;\tsize:8;\tsigned:0;").data,
   ("\tfield:u32 b;\toffset:8;\tsize:4;\tsigned:0;").data]

def c1Out : BuildOut :=
  ⟨[⟨("A").data, .uint64, ("u64").data, false, 0, true⟩,
    ⟨("B").data, .uint32, ("u32").data, false, 8, true⟩],
   [], 0, 12, none⟩

def c2Lines : List Str :=
  [("\tfield:u32 a;\toffset:0;\tsize:4;\tsigned:0;").data,
   ("\tfield:u32 b;\toffset:4;\tsize:4;\tsigned:0;").data]

def c2Out : BuildOut :=
  ⟨[⟨("A").data, .uint32, ("u32").data, false, 0, true⟩,
    ⟨("B").data, .uint32, ("u32").data, false, 4, true⟩],
   [], 0, 8, none⟩

/-- The view the amended claim C3 predicts for a successful
dynamic-array decode: `n` is the byte length from the descriptor's
high 16 bits, `bytes` the buffer remainder at the descriptor's byte
offset; the view holds `n / w` elements of the resolved element class
`(w, sgn)`, read in native byte order (width-1 elements are the raw
bytes, sign-extended when the class is signed). -/
def dynViewSpec (order : ByteOrder) (w : Nat) (sgn : Bool) (n : Nat)
    (bytes : List Nat) : Val :=
  if sgn then
    if w = 1 then .vSliceI 1 ((bytes.take n).map (toSigned 8))
    else .vSliceI w ((chunkLoads order w (n / w) bytes).map (toSigned (8 * w)))
  else
    if w = 1 then .vSliceU 1 (bytes.take n)
    else .vSliceU w (chunkLoads order w (n / w) bytes)

/-! ## Helper lemmas -/

theorem toUpperCh_of_isUpperCh {c : Char} (h : isUpperCh c = true) :
    toUpperCh c = c := by
  unfold isUpperCh at h
  unfold toUpperCh
  simp only [Bool.and_eq_true, decide_eq_true_eq] at h
  have hno : ¬ (97 ≤ c.toNat && c.toNat ≤ 122) = true := by
    simp only [Bool.and_eq_true, decide_eq_true_eq]
    omega
  simp [hno]

/-! ## Claim C9 -/

/-- Claim C9 counterexample: the export transform does not map
`"__type"` to itself; it strips the underscores and uppercases the
remaining `"type"`, giving `"Type"`. -/
theorem exportLabel_type_cex :
    exportLabel ("__type").data = ("Type").data ∧
    ("Type").data ≠ ("__type").data := by
  constructor
  · rfl
  · decide

/-- Claim C9 (amended): the export transform strips leading
underscores and, when a character remains, uppercases the first
remaining character leaving the rest unchanged (`exportSpec`, the
spec-worded rule); `"__probe_ip"` maps to `"Probe_ip"`, `"dfd"` to
`"Dfd"`; an all-underscore name maps to itself; and `"__type"` maps to
`"Type"`, not to itself. -/
theorem exportLabel_amended :
    (∀ s : Str, exportLabel s = exportSpec s) ∧
    exportLabel ("__probe_ip").data = ("Probe_ip").data ∧
    exportLabel ("dfd").data = ("Dfd").data ∧
    exportLabel ("__type").data = ("Type").data ∧
    (∀ s : Str, s.all (· = '_') → exportLabel s = s) := by
  refine ⟨?_, rfl, rfl, rfl, ?_⟩
  · intro s
    unfold exportLabel exportSpec
    cases h : s.dropWhile (· = '_') with
    | nil => rfl
    | cons c rest =>
      simp only
      by_cases hu : isUpperCh c = true
      · simp [hu, toUpperCh_of_isUpperCh hu]
      · simp [hu]
  · intro s hall
    unfold exportLabel
    have h : s.dropWhile (· = '_') = [] := by
      rw [List.dropWhile_eq_nil_iff]
      intro x hx
      have := List.all_eq_true.mp hall x hx
      simpa using this
    rw [h]

/-- Claim C9 amended witness: the all-underscore clause at `"___"`. -/
theorem exportLabel_amended_witness :
    exportLabel ("___").data = ("___").data :=
  exportLabel_amended.2.2.2.2 ("___").data (by decide)

/-! ## Claim C6 -/



/-- Claim C6 (code bug): when a padding field is inserted immediately
before an alignment-fallback field, the recorded unaligned index
(`i+padIdx`, computed before the padding insertion) points at the
padding field, not the fallback field: for a schema with a 3-byte gap
before an unaligned `unsigned short` at offset 7, the mask is
`[false, true, false]` — entry 1 (the `_pad0` padding field) is marked
while entry 2 (the actual fallback field, the one carrying the
`unaligned` tag) is not. -/
theorem unaligned_mask_marks_pad :
    structPkgLines c6Lines = .ok c6Out ∧
    c6Out.report = some ⟨[1], some [false, true, false], false⟩ ∧
    (c6Out.fields.get? 1).map (fun f => f.name) = some ("_pad0").data ∧
    (c6Out.fields.get? 1).map (fun f => f.tagUnaligned) = some false ∧
    (c6Out.fields.get? 2).map (fun f => f.tagUnaligned) = some true := by
  refine ⟨rfl, by decide, by decide, by decide, by decide⟩

/-! ## Claim C7 -/

/-- Claim C7 (code bug): a field whose declared offset is smaller than
the running cursor is rejected with a recoverable error (second
conjunct), but malformed schema input can nevertheless abort the
registering process: a zero array element count reaches `bytes % n`
with `n = 0` (integer divide by zero), and a size outside {1,2,4,8}
reaches `Align` on the nil `reflect.Type` of a failed `integerTypes`
lookup (nil pointer dereference). -/
theorem malformed_schema_panics :
    structPkgLines [("\tfield:int a[0];\toffset:0;\tsize:4;\tsigned:1;").data]
      = .error (.crash "integer divide by zero") ∧
    structPkgLines [("\tfield:u32 a;\toffset:4;\tsize:4;\tsigned:0;").data,
                    ("\tfield:u32 b;\toffset:0;\tsize:4;\tsigned:0;").data]
      = .error (.err "invalid offset for field") ∧
    structPkgLines [("\tfield:char a;\toffset:0;\tsize:3;\tsigned:0;").data]
      = .error (.crash "nil pointer dereference in Align") := by
  refine ⟨rfl, rfl, rfl⟩

/-! ## Claim C1 -/

theorem verifyAux_sound (pairs : List (Str × Int)) :
    ∀ l : List SField, verifyAux pairs l = .ok () →
      ∀ f ∈ l, findByName pairs f.name = some f.off := by
  intro l
  induction l with
  | nil => intro _ f hf; exact absurd hf (List.not_mem_nil f)
  | cons g rest ih =>
    intro h f hf
    unfold verifyAux at h
    cases hg : findByName pairs g.name with
    | none => rw [hg] at h; exact Except.noConfusion h
    | some got =>
      rw [hg] at h
      dsimp only at h
      by_cases he : got = g.off
      · rw [if_neg (by simp [he])] at h
        rcases List.mem_cons.mp hf with hfg | hfr
        · subst hfg; rw [hg, he]
        · exact ih h f hfr
      · rw [if_pos he] at h
        exact Except.noConfusion h

/-- Claim C1: for every schema accepted by struct construction (the
non-fatal `UnalignedFieldsError` report included), every field of the
returned struct type — data fields and inserted padding fields alike —
sits at exactly the offset declared for it in the schema: looking the
field's name up in the `reflect.StructOf` layout yields its declared
offset.  Any mismatch is caught by the post-construction verification
loop, which returns an error instead of this layout. -/
theorem struct_offsets_exact (lines : List Str) (out : BuildOut)
    (h : structPkgLines lines = .ok out) :
    ∀ f ∈ out.fields, findByName (namesOffsets out.fields) f.name = some f.off := by
  unfold structPkgLines at h
  cases hf : lines.foldlM procLine initState with
  | error e => rw [hf] at h; exact Except.noConfusion h
  | ok st =>
    rw [hf] at h
    dsimp only at h
    cases hv : verifyFields st.fields with
    | error e => rw [hv] at h; exact Except.noConfusion h
    | ok u =>
      cases u
      rw [hv] at h
      dsimp only at h
      injection h with h
      have hout : out.fields = st.fields := by rw [← h]
      rw [hout]
      exact verifyAux_sound _ _ hv



/-- Claim C1 witness: a concrete accepted schema, with the conclusion
evaluated at its second field. -/
theorem struct_offsets_exact_witness :
    findByName (namesOffsets c1Out.fields) ("B").data = some 8 :=
  struct_offsets_exact c1Lines c1Out rfl
    ⟨("B").data, .uint32, ("u32").data, false, 8, true⟩ (by decide)

/-! ## Claim C8 -/

/-- Claim C8 counterexample: `ID: -5` is numeric for `strconv.Atoi`,
is not rejected by the `> math.MaxUint16` test, and construction
succeeds returning id `65531 = uint16(-5)` — the parsed value is
negative and the returned id differs from it, contradicting the claim
that such input either fails or returns the parsed non-negative
value. -/
theorem id_negative_accepted_cex :
    structPkgLines [("ID: -5").data] = .ok ⟨[], [], 65531, 0, none⟩ ∧
    atoi ("-5").data = .ok (-5) ∧
    ((-5 : Int) < 0) ∧
    ¬ ((65531 : Int) = -5) := by
  refine ⟨rfl, rfl, by decide, by decide⟩

theorem hasPre_append (p s : Str) : hasPre p (p ++ s) = true := by
  unfold hasPre
  induction p with
  | nil => cases s <;> rfl
  | cons c rest ih => simpa [List.isPrefixOf] using ih

theorem trimPre_append (p s : Str) : trimPre p (p ++ s) = s := by
  unfold trimPre
  rw [hasPre_append]
  simp [List.drop_left]

/-- Claim C8 (amended): for an `ID: <text>` line, parsing fails when
the text is not numeric (including on `int64` overflow), and fails
when the parsed value is greater than 65535; otherwise construction
returns `uint16(value)` — equal to the parsed value when that value is
non-negative, but a negative parsed value is not rejected and wraps
modulo 2^16. -/
theorem id_line_amended (s : Str) :
    structPkgLines [("ID: ").data ++ s] =
      match atoi s with
      | .error e => .error e
      | .ok n =>
        if 65535 < n then .error (.err "format id overflows uint16")
        else .ok ⟨[], [], (n.emod 65536).toNat, 0, none⟩ := by
  have h1 : hasPre ("\tfield:").data (("ID: ").data ++ s) = false := rfl
  have h2 : hasPre ("name: ").data (("ID: ").data ++ s) = false := rfl
  have h3 : hasPre ("ID: ").data (("ID: ").data ++ s) = true :=
    hasPre_append _ s
  have hp : procLine initState (("ID: ").data ++ s) =
      (match atoi s with
      | .error e => .error e
      | .ok n =>
        if 65535 < n then .error (.err "format id overflows uint16")
        else .ok { initState with id := (n.emod 65536).toNat }) := by
    unfold procLine
    simp only [h1, h2, h3, Bool.false_eq_true, if_false, if_true, trimPre_append]
  unfold structPkgLines
  simp only [List.foldlM_cons, List.foldlM_nil, hp]
  cases ha : atoi s with
  | error e => rfl
  | ok n =>
    dsimp only
    by_cases hn : 65535 < n
    · rw [if_pos hn, if_pos hn]
      rfl
    · rw [if_neg hn, if_neg hn]
      rfl

/-! ## Claim C4 -/

theorem exceptBind_ok {α β : Type} (a : α) (f : α → Except GoErr β) :
    (Except.ok a >>= f : Except GoErr β) = f a := rfl

theorem exceptBind_error {α β : Type} (e : GoErr) (f : α → Except GoErr β) :
    (Except.error e >>= f : Except GoErr β) = .error e := rfl

/-- Claim C4: in construction (aligned) mode, a field descriptor is
flagged as an alignment fallback if and only if its declared offset is
not a multiple of the native alignment of its canonical scalar type;
in exactly that case the constructed storage type is a raw byte array
whose length equals the declared size, and otherwise the field gets
its true scalar or fixed-array type. -/
theorem alignment_fallback_iff (size signed ctyp : Str) (off : Int)
    (t : GoTyp) (b : Int) (fb : Bool) (bytes s n : Int) (dyn : Bool) (sc : GoTyp)
    (hb : atoi (trimSuf (";").data (trimPre ("size:").data size)) = .ok bytes)
    (hs : atoi (trimSuf (";").data (trimPre ("signed:").data signed)) = .ok s)
    (ha : arraySize ctyp = .ok (n, dyn))
    (ht : integerTypes (bytes.tdiv n) (s = 1 && !dyn) = some sc)
    (h : integerType size signed ctyp off true = .ok (t, b, fb)) :
    (fb = true ↔ off.tmod (sc.align : Int) ≠ 0) ∧
    b = bytes ∧
    (fb = true → t = .arr bytes.toNat .uint8) ∧
    (fb = false → t = if 1 < n then .arr n.toNat sc else sc) := by
  unfold integerType at h
  rw [hb, exceptBind_ok] at h
  rw [hs, exceptBind_ok] at h
  rw [ha, exceptBind_ok] at h
  dsimp only at h
  by_cases hn0 : n = 0
  · rw [if_pos hn0] at h; exact Except.noConfusion h
  rw [if_neg hn0] at h
  by_cases hm : bytes.tmod n ≠ 0
  · rw [if_pos hm] at h; exact Except.noConfusion h
  rw [if_neg hm] at h
  rw [ht] at h
  dsimp only at h
  rw [Bool.true_and] at h
  by_cases hal : off.tmod (sc.align : Int) ≠ 0
  · rw [if_pos (decide_eq_true hal)] at h
    injection h with h
    rw [Prod.mk.injEq, Prod.mk.injEq] at h
    obtain ⟨h1, h2, h3⟩ := h
    subst h1; subst h2; subst h3
    exact ⟨iff_of_true rfl hal, rfl, fun _ => rfl, fun hf => Bool.noConfusion hf⟩
  · rw [if_neg (by simp only [decide_eq_true_eq]; exact hal)] at h
    by_cases h1n : 1 < n
    · rw [if_pos h1n] at h
      injection h with h
      rw [Prod.mk.injEq, Prod.mk.injEq] at h
      obtain ⟨h1, h2, h3⟩ := h
      subst h1; subst h2; subst h3
      exact ⟨iff_of_false Bool.false_ne_true hal, rfl,
        fun hf => Bool.noConfusion hf, fun _ => by rw [if_pos h1n]⟩
    · rw [if_neg h1n] at h
      injection h with h
      rw [Prod.mk.injEq, Prod.mk.injEq] at h
      obtain ⟨h1, h2, h3⟩ := h
      subst h1; subst h2; subst h3
      exact ⟨iff_of_false Bool.false_ne_true hal, rfl,
        fun hf => Bool.noConfusion hf, fun _ => by rw [if_neg h1n]⟩

/-- Claim C4 witness: `size:2; signed:1;` `short` at offset 1 — the
canonical scalar is `int16` with alignment 2, the offset violates it,
and the resolver reports the `[2]uint8` fallback. -/
theorem alignment_fallback_iff_witness :
    ((true = true) ↔ (1 : Int).tmod ((GoTyp.int16).align : Int) ≠ 0) ∧
    (2 : Int) = 2 ∧
    (true = true → GoTyp.arr (2 : Int).toNat .uint8 = .arr (2 : Int).toNat .uint8) ∧
    (true = false →
      GoTyp.arr (2 : Int).toNat .uint8 =
        if (1 : Int) < 1 then .arr (1 : Int).toNat .int16 else .int16) :=
  alignment_fallback_iff ("size:2;").data ("signed:1;").data ("short").data 1
    (.arr 2 .uint8) 2 true 2 1 1 false .int16 rfl rfl rfl rfl rfl

/-! ## Claim C5 -/

theorem machineUint_little_lt (bs : List Nat) (h : ∀ x ∈ bs, x < 256) :
    machineUint .little bs < 2 ^ (8 * bs.length) := by
  unfold machineUint
  induction bs with
  | nil => simp
  | cons b rest ih =>
    simp only [List.foldr_cons, List.length_cons]
    have hb : b < 256 := h b (by simp)
    have hr : rest.foldr (fun b acc => b + 256 * acc) 0 < 2 ^ (8 * rest.length) :=
      ih (fun x hx => h x (by simp [hx]))
    have hpow : 2 ^ (8 * (rest.length + 1)) = 2 ^ (8 * rest.length) * 256 := by
      rw [Nat.mul_succ, pow_add]
      norm_num
    rw [hpow]
    omega

theorem machineUint_big_aux (bs : List Nat) (h : ∀ x ∈ bs, x < 256) :
    ∀ acc, bs.foldl (fun acc b => acc * 256 + b) acc < (acc + 1) * 2 ^ (8 * bs.length) := by
  induction bs with
  | nil => intro acc; simp
  | cons b rest ih =>
    intro acc
    simp only [List.foldl_cons, List.length_cons]
    have hb : b < 256 := h b (by simp)
    have hr := ih (fun x hx => h x (by simp [hx])) (acc * 256 + b)
    have hpow : 2 ^ (8 * (rest.length + 1)) = 2 ^ (8 * rest.length) * 256 := by
      rw [Nat.mul_succ, pow_add]
      norm_num
    rw [hpow]
    calc rest.foldl (fun acc b => acc * 256 + b) (acc * 256 + b)
        < (acc * 256 + b + 1) * 2 ^ (8 * rest.length) := hr
      _ ≤ ((acc + 1) * 256) * 2 ^ (8 * rest.length) :=
          Nat.mul_le_mul_right _ (by omega)
      _ = (acc + 1) * (2 ^ (8 * rest.length) * 256) := by ring

theorem machineUint_lt (order : ByteOrder) (bs : List Nat) (h : ∀ x ∈ bs, x < 256) :
    machineUint order bs < 2 ^ (8 * bs.length) := by
  cases order with
  | little => exact machineUint_little_lt bs h
  | big =>
    have := machineUint_big_aux bs h 0
    simpa [machineUint] using this

theorem unpack_single_unaligned (order : ByteOrder) (d : DstF) (s : SrcF) :
    unpack order [d] [s] ⟨[0], some [true], false⟩ [] =
      (unalignedFix order d s).map (fun v => [v]) := by
  unfold unpack
  cases hfix : unalignedFix order d s with
  | error e =>
    simp [loop1, loop2, maskAt, hfix, Except.map]
    rfl
  | ok v =>
    simp [loop1, loop2, maskAt, hfix, Except.map]
    rfl

/-- Claim C5: for a field flagged unaligned whose source is a byte
array of width 2, 4 or 8, the decoder's second pass reinterprets the
bytes in the host byte order as an unsigned integer of that width; a
signed-integer destination of that width receives the two's-complement
(sign-preserving) reading of those bytes, an unsigned destination
receives the unsigned value, and any destination kind other than a
16/32/64-bit integer fails the decode with "invalid kind for field". -/
theorem unaligned_second_pass (order : ByteOrder) (w : Nat) (bs : List Nat)
    (dt ut : GoTyp)
    (hw : w = 2 ∨ w = 4 ∨ w = 8)
    (hlen : bs.length = w)
    (hbyte : ∀ x ∈ bs, x < 256)
    (hdt : integerTypes (w : Int) true = some dt)
    (hut : integerTypes (w : Int) false = some ut) :
    unpack order [⟨true, dt⟩] [⟨true, [], .arr w .uint8, .vBytes bs⟩]
        ⟨[0], some [true], false⟩ []
      = .ok [.vInt w (toSigned (8 * w) (machineUint order bs))] ∧
    unpack order [⟨true, ut⟩] [⟨true, [], .arr w .uint8, .vBytes bs⟩]
        ⟨[0], some [true], false⟩ []
      = .ok [.vUint w (machineUint order bs)] ∧
    unpack order [⟨true, .arr w .uint8⟩] [⟨true, [], .arr w .uint8, .vBytes bs⟩]
        ⟨[0], some [true], false⟩ []
      = .error (.err "invalid kind for field") := by
  have hmlt : machineUint order bs < 2 ^ (8 * w) := hlen ▸ machineUint_lt order bs hbyte
  rcases hw with rfl | rfl | rfl
  · rw [show integerTypes ((2 : Nat) : Int) true = some GoTyp.int16 from by
      norm_num [integerTypes]] at hdt
    rw [show integerTypes ((2 : Nat) : Int) false = some GoTyp.uint16 from by
      norm_num [integerTypes]] at hut
    injection hdt with hdt
    injection hut with hut
    subst hdt; subst hut
    refine ⟨?_, ?_, ?_⟩ <;>
      simp [unpack_single_unaligned, unalignedFix, GoTyp.size, hlen,
        Except.map, exceptBind_ok, toSigned, Nat.mod_eq_of_lt hmlt] <;>
      (norm_num at hmlt; exact hmlt)
  · rw [show integerTypes ((4 : Nat) : Int) true = some GoTyp.int32 from by
      norm_num [integerTypes]] at hdt
    rw [show integerTypes ((4 : Nat) : Int) false = some GoTyp.uint32 from by
      norm_num [integerTypes]] at hut
    injection hdt with hdt
    injection hut with hut
    subst hdt; subst hut
    refine ⟨?_, ?_, ?_⟩ <;>
      simp [unpack_single_unaligned, unalignedFix, GoTyp.size, hlen,
        Except.map, exceptBind_ok, toSigned, Nat.mod_eq_of_lt hmlt] <;>
      (norm_num at hmlt; exact hmlt)
  · rw [show integerTypes ((8 : Nat) : Int) true = some GoTyp.int64 from by
      norm_num [integerTypes]] at hdt
    rw [show integerTypes ((8 : Nat) : Int) false = some GoTyp.uint64 from by
      norm_num [integerTypes]] at hut
    injection hdt with hdt
    injection hut with hut
    subst hdt; subst hut
    refine ⟨?_, ?_, ?_⟩ <;>
      simp [unpack_single_unaligned, unalignedFix, GoTyp.size, hlen,
        Except.map, exceptBind_ok, toSigned, Nat.mod_eq_of_lt hmlt] <;>
      (norm_num at hmlt; exact hmlt)

/-- Claim C5 witness: width 4 with a sign bit set — bytes
`f0 00 00 80` little-endian give `0x800000f0`, stored signed as the
negative two's-complement value. -/
theorem unaligned_second_pass_witness :
    unpack .little [⟨true, .int32⟩] [⟨true, [], .arr 4 .uint8, .vBytes [240, 0, 0, 128]⟩]
        ⟨[0], some [true], false⟩ []
      = .ok [.vInt 4 (toSigned (8 * 4) (machineUint .little [240, 0, 0, 128]))] ∧
    unpack .little [⟨true, .uint32⟩] [⟨true, [], .arr 4 .uint8, .vBytes [240, 0, 0, 128]⟩]
        ⟨[0], some [true], false⟩ []
      = .ok [.vUint 4 (machineUint .little [240, 0, 0, 128])] ∧
    unpack .little [⟨true, .arr 4 .uint8⟩] [⟨true, [], .arr 4 .uint8, .vBytes [240, 0, 0, 128]⟩]
        ⟨[0], some [true], false⟩ []
      = .error (.err "invalid kind for field") :=
  unaligned_second_pass .little 4 [240, 0, 0, 128] .int32 .uint32
    (by norm_num) rfl (by decide) (by decide) (by decide)

/-! ## Claim C10 -/

/-- Claim C10: a dynamic-array descriptor that passes the bounds check
but selects an empty byte range (its offset equals the buffer length,
so the count is forced to zero) leaves the destination field at its
zero value, continues with the remaining fields, and returns no
error. -/
theorem dyn_empty_range (order : ByteOrder) (v : Nat) (data : List Nat)
    (hv : v < 2 ^ 32)
    (hoff : v % 65536 = data.length)
    (hn : v % 65536 + v / 65536 ≤ data.length) :
    unpack order
      [⟨true, .slice .uint8⟩, ⟨true, .uint32⟩]
      [⟨true, ("__data_loc char[]").data, .uint32, .vUint 4 v⟩,
       ⟨true, ("u32").data, .uint32, .vUint 4 5⟩]
      ⟨[], some [false, false], true⟩ data
      = .ok [.vZero, .vUint 4 5] := by
  have hc1 : hasPre ("__data_loc").data ("__data_loc char[]").data = true := rfl
  have hc2 : hasPre ("__data_loc").data ("u32").data = false := rfl
  have hb : ¬ (data.length < v % 65536 ∨ data.length < v % 65536 + v / 65536) := by
    omega
  have hdrop : (data.drop (v % 65536)).length = 0 := by
    rw [List.length_drop]
    omega
  unfold unpack
  simp [loop1, loop2, dynBranch, maskAt, exceptBind_ok, hc1, hc2, hb, hdrop]

/-- Claim C10 witness: descriptor offset 4 = buffer length, count 0. -/
theorem dyn_empty_range_witness :
    unpack .little
      [⟨true, .slice .uint8⟩, ⟨true, .uint32⟩]
      [⟨true, ("__data_loc char[]").data, .uint32, .vUint 4 4⟩,
       ⟨true, ("u32").data, .uint32, .vUint 4 5⟩]
      ⟨[], some [false, false], true⟩ [9, 9, 9, 9]
      = .ok [.vZero, .vUint 4 5] :=
  dyn_empty_range .little 4 [9, 9, 9, 9] (by norm_num) rfl (by norm_num)

/-! ## Claim C2 -/



/-- Claim C2 counterexample: for a layout of fixed record size 8, a
decode call with an empty buffer (length 0 < 8) does not fail with a
truncated-buffer error — it succeeds and writes every destination
field.  `Unpack` never compares the buffer against the record's fixed
size. -/
theorem unpack_short_buffer_cex :
    structPkgLines c2Lines = .ok c2Out ∧
    c2Out.size = 8 ∧
    ([] : List Nat).length < 8 ∧
    unpack .little [⟨true, .uint32⟩, ⟨true, .uint32⟩]
      [⟨true, ("u32").data, .uint32, .vUint 4 7⟩,
       ⟨true, ("u32").data, .uint32, .vUint 4 9⟩]
      ⟨[], none, false⟩ []
      = .ok [.vUint 4 7, .vUint 4 9] := by
  refine ⟨rfl, rfl, by norm_num, rfl⟩

theorem loop1_data_irrelevant (order : ByteOrder) (mask : Option (List Bool))
    (data data' : List Nat) :
    ∀ ps : List (DstF × SrcF), ∀ i : Nat,
      (∀ p ∈ ps, hasPre ("__data_loc").data p.2.ctyp = false) →
      loop1 order mask data ps i = loop1 order mask data' ps i := by
  intro ps
  induction ps with
  | nil => intro i _; rfl
  | cons p rest ih =>
    intro i h
    obtain ⟨d, s⟩ := p
    have hs : hasPre ("__data_loc").data s.ctyp = false := h (d, s) (by simp)
    have hr : ∀ q ∈ rest, hasPre ("__data_loc").data q.2.ctyp = false :=
      fun q hq => h q (by simp [hq])
    unfold loop1
    rw [ih (i + 1) hr]
    simp [hs]

/-- Claim C2 (amended): `Unpack` performs no truncated-buffer check
against the record's fixed size; the buffer is consulted only by the
dynamic-array branch, so for source structs without a `__data_loc`
field the result is entirely independent of the buffer — in
particular a buffer shorter than `totalSize` produces no error. -/
theorem unpack_no_truncation_check (order : ByteOrder) (dst : List DstF)
    (src : List SrcF) (un : UnalignedFields) (data data' : List Nat)
    (h : ∀ s ∈ src, hasPre ("__data_loc").data s.ctyp = false) :
    unpack order dst src un data = unpack order dst src un data' := by
  unfold unpack
  have hps : ∀ p ∈ dst.zip src, hasPre ("__data_loc").data p.2.ctyp = false :=
    fun p hp => h p.2 (List.of_mem_zip hp).2
  rw [loop1_data_irrelevant order un.mask data data' (dst.zip src) 0 hps]

/-- Claim C2 amended witness. -/
theorem unpack_no_truncation_check_witness :
    unpack .little [⟨true, .uint32⟩] [⟨true, ("u32").data, .uint32, .vUint 4 7⟩]
        ⟨[], none, false⟩ [1, 2]
      = unpack .little [⟨true, .uint32⟩] [⟨true, ("u32").data, .uint32, .vUint 4 7⟩]
        ⟨[], none, false⟩ [] :=
  unpack_no_truncation_check .little _ _ _ [1, 2] [] (by decide)

/-! ## Claim C3 -/

/-- Claim C3 counterexample: for a `__data_loc u16[]` field with
packed descriptor `4 <<< 16` (claim reading: count 4, offset 0) over a
4-byte buffer, the claim demands an out-of-range failure, since
`offset + count*elementWidth = 8 > 4`; the code instead succeeds —
the high 16 bits are a byte length, not an element count — and the
resulting view has 2 elements, not 4. -/
theorem dyn_descriptor_cex :
    unpack .little [⟨true, .slice .uint16⟩]
      [⟨true, ("__data_loc u16[]").data, .uint32, .vUint 4 (4 * 65536)⟩]
      ⟨[], some [false], true⟩ [1, 0, 2, 0]
      = .ok [.vSliceU 2 [1, 2]] ∧
    (4 * 65536 : Nat) / 65536 = 4 ∧
    (4 * 65536 : Nat) % 65536 = 0 ∧
    ([1, 0, 2, 0] : List Nat).length < 0 + 4 * 2 ∧
    ¬ ([(1 : Nat), 2].length = 4) := by
  refine ⟨rfl, by norm_num, by norm_num, by norm_num, by norm_num⟩

/-- `Unpack` on a single exported dynamic-array field reduces to the
dynamic-array branch of its first loop. -/
theorem unpack_single_dyn (order : ByteOrder) (d : DstF) (s : SrcF) (data : List Nat)
    (h : hasPre ("__data_loc").data s.ctyp = true)
    (hd : d.exported = true) (hs : s.exported = true) :
    unpack order [d] [s] ⟨[], some [false], true⟩ data
      = (dynBranch order d s data).map (fun v => [v]) := by
  unfold unpack
  cases hdb : dynBranch order d s data with
  | error e =>
    simp [loop1, loop2, maskAt, h, hd, hs, hdb, Except.map,
      exceptBind_ok, exceptBind_error]
  | ok v =>
    simp [loop1, loop2, maskAt, h, hd, hs, hdb, Except.map, exceptBind_ok]

/-- Claim C3 (amended): for every dynamic-array (`__data_loc`) field,
the packed 32-bit descriptor splits as low 16 bits = byte offset into
the full buffer and high 16 bits = byte length `n` of the data (not an
element count); the decoder checks `offset` and `offset + n` against
the buffer length, failing the decode call when out of range; on
success with a non-empty remainder, for element classes of width 1 or
2 and for unsigned classes of width 4 or 8 the destination (a slice of
the resolved element type) receives a view of `n / elementWidth`
elements of that type read in native byte order from the buffer at the
offset (`dynViewSpec`); for the signed width-4 and width-8 classes
(`s32[]`, `s64[]`, `long[]`, ...) the code instead builds an unsigned
slice whose `reflect.Set` against the signed destination panics, so no
view of the resolved element type is delivered there.  The view
borrows the source buffer; borrowing is a memory-aliasing property
outside this embedding. -/
theorem dyn_branch_amended (order : ByteOrder) (es : Str) (w : Nat)
    (sgn : Bool) (et : GoTyp) (v : Nat) (data : List Nat)
    (hv : v < 2 ^ 32)
    (hcls : dynamicArrayTypes es = some (w, sgn))
    (het : integerTypes (w : Int) sgn = some et) :
    ((data.length < v % 65536 ∨ data.length < v % 65536 + v / 65536) →
      unpack order [⟨true, .slice et⟩]
        [⟨true, ("__data_loc ").data ++ es, .uint32, .vUint 4 v⟩]
        ⟨[], some [false], true⟩ data
      = .error (.err "invalid dynamic data indexes")) ∧
    (¬ (data.length < v % 65536 ∨ data.length < v % 65536 + v / 65536) →
      0 < data.length - v % 65536 →
      (sgn = false ∨ w = 1 ∨ w = 2) →
      unpack order [⟨true, .slice et⟩]
        [⟨true, ("__data_loc ").data ++ es, .uint32, .vUint 4 v⟩]
        ⟨[], some [false], true⟩ data
      = .ok [dynViewSpec order w sgn (v / 65536) (data.drop (v % 65536))]) ∧
    (¬ (data.length < v % 65536 ∨ data.length < v % 65536 + v / 65536) →
      0 < data.length - v % 65536 →
      sgn = true → (w = 4 ∨ w = 8) →
      unpack order [⟨true, .slice et⟩]
        [⟨true, ("__data_loc ").data ++ es, .uint32, .vUint 4 v⟩]
        ⟨[], some [false], true⟩ data
      = .error (.crash "reflect.Set type mismatch")) := by
  have hc1 : hasPre ("__data_loc").data (("__data_loc ").data ++ es) = true := by
    have he : ("__data_loc ").data ++ es = ("__data_loc").data ++ (' ' :: es) := rfl
    rw [he]
    exact hasPre_append _ _
  have htrim : trimPre ("__data_loc ").data (("__data_loc ").data ++ es) = es :=
    trimPre_append _ _
  have hw : w = 1 ∨ w = 2 ∨ w = 4 ∨ w = 8 := by
    by_contra hcon
    push_neg at hcon
    obtain ⟨h1, h2, h4, h8⟩ := hcon
    have hnone : integerTypes (w : Int) sgn = none := by
      unfold integerTypes
      have c1 : ¬ ((w : Int) = 1) := by exact_mod_cast h1
      have c2 : ¬ ((w : Int) = 2) := by exact_mod_cast h2
      have c4 : ¬ ((w : Int) = 4) := by exact_mod_cast h4
      have c8 : ¬ ((w : Int) = 8) := by exact_mod_cast h8
      simp [c1, c2, c4, c8]
    rw [hnone] at het
    exact Option.noConfusion het
  refine ⟨?_, ?_, ?_⟩
  · intro hb
    rw [unpack_single_dyn order ⟨true, .slice et⟩
      ⟨true, ("__data_loc ").data ++ es, .uint32, .vUint 4 v⟩ data hc1 rfl rfl]
    simp [dynBranch, hb, Except.map, exceptBind_error]
  · intro hb hne hok
    have hlen0 : ¬ (data.length - v % 65536 = 0) := by omega
    rw [unpack_single_dyn order ⟨true, .slice et⟩
      ⟨true, ("__data_loc ").data ++ es, .uint32, .vUint 4 v⟩ data hc1 rfl rfl]
    rcases hw with rfl | rfl | rfl | rfl
    · cases sgn with
      | false =>
        rw [show integerTypes ((1 : Nat) : Int) false = some GoTyp.uint8 from by
          norm_num [integerTypes]] at het
        injection het with het
        subst het
        unfold dynBranch
        dsimp only
        rw [htrim, hcls]
        simp [setSlice, sliceValTyp, dynViewSpec, hb, hlen0, Except.map]
      | true =>
        rw [show integerTypes ((1 : Nat) : Int) true = some GoTyp.int8 from by
          norm_num [integerTypes]] at het
        injection het with het
        subst het
        unfold dynBranch
        dsimp only
        rw [htrim, hcls]
        simp [setSlice, sliceValTyp, dynViewSpec, hb, hlen0, Except.map]
    · cases sgn with
      | false =>
        rw [show integerTypes ((2 : Nat) : Int) false = some GoTyp.uint16 from by
          norm_num [integerTypes]] at het
        injection het with het
        subst het
        unfold dynBranch
        dsimp only
        rw [htrim, hcls]
        simp [setSlice, sliceValTyp, dynViewSpec, hb, hlen0, Except.map]
      | true =>
        rw [show integerTypes ((2 : Nat) : Int) true = some GoTyp.int16 from by
          norm_num [integerTypes]] at het
        injection het with het
        subst het
        unfold dynBranch
        dsimp only
        rw [htrim, hcls]
        simp [setSlice, sliceValTyp, dynViewSpec, hb, hlen0, Except.map]
    · cases sgn with
      | false =>
        rw [show integerTypes ((4 : Nat) : Int) false = some GoTyp.uint32 from by
          norm_num [integerTypes]] at het
        injection het with het
        subst het
        unfold dynBranch
        dsimp only
        rw [htrim, hcls]
        simp [setSlice, sliceValTyp, dynViewSpec, hb, hlen0, Except.map]
      | true =>
        rcases hok with h | h | h
        · exact absurd h (by decide)
        · exact absurd h (by decide)
        · exact absurd h (by decide)
    · cases sgn with
      | false =>
        rw [show integerTypes ((8 : Nat) : Int) false = some GoTyp.uint64 from by
          norm_num [integerTypes]] at het
        injection het with het
        subst het
        unfold dynBranch
        dsimp only
        rw [htrim, hcls]
        simp [setSlice, sliceValTyp, dynViewSpec, hb, hlen0, Except.map]
      | true =>
        rcases hok with h | h | h
        · exact absurd h (by decide)
        · exact absurd h (by decide)
        · exact absurd h (by decide)
  · intro hb hne hsgn hw48
    subst hsgn
    have hlen0 : ¬ (data.length - v % 65536 = 0) := by omega
    rw [unpack_single_dyn order ⟨true, .slice et⟩
      ⟨true, ("__data_loc ").data ++ es, .uint32, .vUint 4 v⟩ data hc1 rfl rfl]
    rcases hw48 with rfl | rfl
    · rw [show integerTypes ((4 : Nat) : Int) true = some GoTyp.int32 from by
        norm_num [integerTypes]] at het
      injection het with het
      subst het
      unfold dynBranch
      dsimp only
      rw [htrim, hcls]
      simp [setSlice, sliceValTyp, hb, hlen0, Except.map]
    · rw [show integerTypes ((8 : Nat) : Int) true = some GoTyp.int64 from by
        norm_num [integerTypes]] at het
      injection het with het
      subst het
      unfold dynBranch
      dsimp only
      rw [htrim, hcls]
      simp [setSlice, sliceValTyp, hb, hlen0, Except.map]

/-- Claim C3 amended witness: `u16[]` element class, descriptor
`2 <<< 16` over buffer `[5, 0]` — byte length 2, one u16 element. -/
theorem dyn_branch_amended_witness :
    unpack .little [⟨true, .slice .uint16⟩]
      [⟨true, ("__data_loc ").data ++ ("u16[]").data, .uint32, .vUint 4 (2 * 65536)⟩]
      ⟨[], some [false], true⟩ [5, 0]
      = .ok [dynViewSpec .little 2 false ((2 * 65536) / 65536)
          (([5, 0] : List Nat).drop ((2 * 65536) % 65536))] :=
  (dyn_branch_amended .little ("u16[]").data 2 false .uint16 (2 * 65536) [5, 0]
    (by norm_num) rfl rfl).2.1
    (by norm_num) (by norm_num) (Or.inl rfl)

end KprobeProof
